import Mathlib

set_option maxHeartbeats 1000000
set_option maxRecDepth 4000

/-!
Shallow embedding of the two diagnostic programs of this repository:
`src/apps/libc/c/mmap/mmap.c` and `src/apps/libc/c/shm/shm.c`.

Both programs are straight-line sequences of syscalls with inline
assertions.  The kernel they exercise is external to the repository, so the
kernel-side effects (mmap/munmap results, System V shared-memory
bookkeeping) are modelled explicitly: syscall results appear as oracle
parameters, and the SysV segment state (`shm_nattch`, segment contents,
`shmid_ds` fields) is modelled after POSIX semantics, which is the
behaviour the programs are written to validate.
-/

namespace MmapShm

/-! ## test_memory_rw (mmap.c lines 13-28)

The write loop stores `(char)(i % 256)` at offset `i` for
`i < size && i < 1024`; the read loop asserts `mem[i] == (char)(i % 256)`
over the same range.  Bytes are modelled as `Int`; `chr` is the
implementation's conversion of the value `i % 256` to `char` (its exact
shape, signed or unsigned, is irrelevant because the very same conversion
appears on both sides of the assertion), so everything is proved for an
arbitrary `chr`. -/

/-- Loop bound of both loops in test_memory_rw: `i < size && i < 1024`. -/
def rwBound (size : Nat) : Nat := min size 1024

/-- One iteration of the write loop: `mem[i] = (char)(i % 256)`. -/
def writeByte (chr : Nat → Int) (mem : Nat → Int) (i : Nat) : Nat → Int :=
  fun j => if j = i then chr (i % 256) else mem j

/-- Memory after the first `n` iterations of the write loop
(offsets `0..n-1` written). -/
def writeLoopN (chr : Nat → Int) (mem : Nat → Int) : Nat → (Nat → Int)
  | 0 => mem
  | n + 1 => writeByte chr (writeLoopN chr mem n) n

/-- Memory after the whole write loop of test_memory_rw on a mapping of the
given size. -/
def rwWrite (chr : Nat → Int) (mem : Nat → Int) (size : Nat) : Nat → Int :=
  writeLoopN chr mem (rwBound size)

/-- The offsets the read-back loop of test_memory_rw inspects. -/
def rwCheckedOffsets (size : Nat) : List Nat := List.range (rwBound size)

/-- The read-back loop: conjunction of the assertions
`mem[i] == (char)(i % 256)` over the checked offsets. -/
def rwCheck (chr : Nat → Int) (mem : Nat → Int) (size : Nat) : Bool :=
  (rwCheckedOffsets size).all fun i => mem i == chr (i % 256)

/-- Closed form of the write loop: offset `j` holds the pattern byte when
`j < n` and is untouched otherwise. -/
theorem writeLoopN_eq (chr : Nat → Int) (mem : Nat → Int) :
    ∀ n j, writeLoopN chr mem n j = if j < n then chr (j % 256) else mem j := by
  intro n
  induction n with
  | zero => intro j; simp [writeLoopN]
  | succ n ih =>
    intro j
    by_cases h : j = n
    · subst h
      simp [writeLoopN, writeByte]
    · have : (j < n + 1) = (j < n) := by
        apply propext
        constructor
        · intro hlt; omega
        · intro hlt; omega
      simp [writeLoopN, writeByte, h, ih, this]

/-- The assertions of the read-back loop all hold after the write loop,
for any initial contents, any size and any char conversion. -/
theorem rwCheck_rwWrite (chr : Nat → Int) (mem : Nat → Int) (size : Nat) :
    rwCheck chr (rwWrite chr mem size) size = true := by
  unfold rwCheck rwWrite rwCheckedOffsets
  rw [List.all_eq_true]
  intro i hi
  rw [List.mem_range] at hi
  rw [writeLoopN_eq]
  simp [hi]

/-- C3: for every mapping with size at least 1 byte, writing the byte
pattern `(char)(i % 256)` at each offset `i < min(size, 1024)` and reading
those offsets back yields the same pattern, so every assertion
`mem[i] == (char)(i % 256)` of test_memory_rw's read-back loop holds. -/
theorem rw_write_then_read_roundtrip (chr : Nat → Int) (mem : Nat → Int)
    (size : Nat) (h : 1 ≤ size) :
    rwCheck chr (rwWrite chr mem size) size = true :=
  rwCheck_rwWrite chr mem size

/-- Witness for the round-trip theorem at size 4096 (the 4KB mapping),
zero-initialized memory and the identity byte conversion. -/
theorem rw_write_then_read_roundtrip_witness :
    rwCheck (fun n => (n : Int)) (rwWrite (fun n => (n : Int)) (fun _ => 0) 4096) 4096 = true :=
  rw_write_then_read_roundtrip (fun n => (n : Int)) (fun _ => 0) 4096 (by decide)

/-- C8: test_memory_rw touches at most the first `min(size, 1024)` bytes of
a mapping: any offset at 1024 or beyond is left unchanged by the write loop
and is not among the offsets the read-back loop inspects. -/
theorem rw_frame_beyond_1024 (chr : Nat → Int) (mem : Nat → Int)
    (size : Nat) (j : Nat) (h : 1024 ≤ j) :
    rwWrite chr mem size j = mem j ∧ j ∉ rwCheckedOffsets size := by
  constructor
  · unfold rwWrite
    rw [writeLoopN_eq]
    have : ¬ j < rwBound size := by
      unfold rwBound
      omega
    simp [this]
  · unfold rwCheckedOffsets
    rw [List.mem_range]
    unfold rwBound
    omega

/-- Witness for the frame theorem: offset 1024 of the 2MB mapping. -/
theorem rw_frame_beyond_1024_witness :
    rwWrite (fun n => (n : Int)) (fun _ => 7) 2097152 1024 = (fun _ => (7 : Int)) 1024 ∧
      1024 ∉ rwCheckedOffsets 2097152 :=
  rw_frame_beyond_1024 (fun n => (n : Int)) (fun _ => 7) 2097152 1024 (by decide)

/-! ## shm.c: segment creation and the pre-fork IPC_STAT checks (lines 9-31)

The kernel's per-segment bookkeeping (the `shmid_ds` fields the program
inspects) is modelled after POSIX semantics: a freshly created segment
records the requested key, the creator's pid, the requested size, and has
no attaches. -/

/-- NUM constant of shm.c. -/
def NUM : Nat := 10000

/-- sizeof(int) on the target. -/
def sizeofInt : Nat := 4

/-- The `shmid_ds` fields shm.c reads back through `shmctl(IPC_STAT)`:
`shm_perm.__key`, `shm_cpid`, `shm_nattch`, `shm_segsz`. -/
structure StatReport where
  key : Int
  cpid : Int
  nattch : Nat
  segsz : Nat
deriving DecidableEq

/-- Kernel state reported for a segment immediately after
`shmget(key, NUM * sizeof(int), IPC_CREAT | 0666)` creates it (POSIX:
creator pid recorded, size as requested, zero attaches). -/
def shmgetCreate (key pid : Int) (size : Nat) : StatReport :=
  { key := key, cpid := pid, nattch := 0, segsz := size }

/-- Line 27: `assert(buf.shm_perm.__key == key)`. -/
def checkKey (buf : StatReport) (key : Int) : Bool := buf.key == key

/-- Line 28: `assert(buf.shm_cpid = getpid())`.  The expression is an
assignment, not a comparison: its value is `getpid()`, so the assertion
passes exactly when the pid is nonzero, regardless of the reported
`shm_cpid`. -/
def checkCpid (buf : StatReport) (pid : Int) : Bool := pid != 0

/-- Line 29: `assert(buf.shm_nattch == 0)`. -/
def checkNattch (buf : StatReport) : Bool := buf.nattch == 0

/-- Line 30: `assert(buf.shm_segsz == NUM * sizeof(int))`. -/
def checkSegsz (buf : StatReport) : Bool := buf.segsz == NUM * sizeofInt

/-- The results of the four assertions of lines 27-30, in program order. -/
def preForkChecks (buf : StatReport) (key pid : Int) : List Bool :=
  [checkKey buf key, checkCpid buf pid, checkNattch buf, checkSegsz buf]

/-- C6: immediately after shmget creates the segment with size
`NUM * sizeof(int)`, IPC_STAT reports state matching the creation
parameters - key as passed, creator pid equal to the caller's pid, size
`NUM * sizeof(int)` - and all four inline assertions of lines 27-30 pass
(the caller's pid being nonzero). -/
theorem shmget_create_stat_matches (key pid : Int) (h : pid ≠ 0) :
    (shmgetCreate key pid (NUM * sizeofInt)).key = key ∧
      (shmgetCreate key pid (NUM * sizeofInt)).cpid = pid ∧
      (shmgetCreate key pid (NUM * sizeofInt)).segsz = NUM * sizeofInt ∧
      preForkChecks (shmgetCreate key pid (NUM * sizeofInt)) key pid =
        [true, true, true, true] := by
  refine ⟨rfl, rfl, rfl, ?_⟩
  simp [preForkChecks, checkKey, checkCpid, checkNattch, checkSegsz, shmgetCreate, h]

/-- Witness for the creation/IPC_STAT theorem at key 1, pid 42. -/
theorem shmget_create_stat_matches_witness :
    (shmgetCreate 1 42 (NUM * sizeofInt)).key = 1 ∧
      (shmgetCreate 1 42 (NUM * sizeofInt)).cpid = 42 ∧
      (shmgetCreate 1 42 (NUM * sizeofInt)).segsz = NUM * sizeofInt ∧
      preForkChecks (shmgetCreate 1 42 (NUM * sizeofInt)) 1 42 =
        [true, true, true, true] :=
  shmget_create_stat_matches 1 42 (by decide)

/-- C9: the line-28 check `assert(buf.shm_cpid = getpid())` assigns rather
than compares, so it passes for every kernel-reported `shm_cpid` (given a
nonzero pid), and the results of the whole pre-fork check block are
identical for any two reported `shm_cpid` values. -/
theorem shm_cpid_check_ignores_report (buf : StatReport) (c c2 key pid : Int)
    (h : pid ≠ 0) :
    preForkChecks { buf with cpid := c } key pid =
        preForkChecks { buf with cpid := c2 } key pid ∧
      checkCpid { buf with cpid := c } pid = true := by
  constructor
  · simp [preForkChecks, checkKey, checkCpid, checkNattch, checkSegsz]
  · simp [checkCpid, h]

/-- Witness for the cpid-check theorem: reported cpid 5 versus 999, key 1,
pid 42. -/
theorem shm_cpid_check_ignores_report_witness :
    preForkChecks { shmgetCreate 1 42 (NUM * sizeofInt) with cpid := 5 } 1 42 =
        preForkChecks { shmgetCreate 1 42 (NUM * sizeofInt) with cpid := 999 } 1 42 ∧
      checkCpid { shmgetCreate 1 42 (NUM * sizeofInt) with cpid := 5 } 42 = true :=
  shm_cpid_check_ignores_report (shmgetCreate 1 42 (NUM * sizeofInt)) 5 999 1 42 (by decide)

/-! ## shm.c: the post-fork parent/child interleaving (lines 33-98)

After `fork`, parent and child each run a fixed sequence of syscalls
against the shared segment.  The kernel state they observe (`shm_nattch`,
segment contents) is modelled per POSIX: `shmat` increments the attach
count, `shmdt` decrements it, a process that dies while attached is
detached by the kernel, and stores through the attached pointer are
visible to the other process.  A schedule is a list of booleans (`true` =
parent runs its next statement, `false` = child does); `wait(NULL)` blocks
until the child has terminated.  Each assertion on the shared state is
recorded in a log as (site, passed); a process whose assertion fails
aborts and takes no further steps. -/

/-- Child's IPC_STAT assertion after its shmat (line 45). -/
def siteChildStat1 : Nat := 0
/-- Child's IPC_STAT assertion after its shmdt (line 57). -/
def siteChildStat2 : Nat := 1
/-- Parent's IPC_STAT assertion after its shmat (line 68). -/
def siteParentStat1 : Nat := 2
/-- Parent's IPC_STAT assertion after wait returns (line 75). -/
def siteParentStat2 : Nat := 3
/-- Parent's read-back assertions on the segment contents (lines 78-80). -/
def siteParentRead : Nat := 4
/-- Parent's IPC_STAT assertion after its shmdt (line 89). -/
def siteParentStat3 : Nat := 5

/-- Post-fork state: parent pc, child pc, kernel attach count, segment
contents, and the log of assertion outcomes.
Parent pcs: 0 shmat, 1 stat assert, 2 wait, 3 stat assert, 4 read asserts,
5 shmdt, 6 stat assert, 7 done (IPC_RMID, printf, return 0), 8 aborted.
Child pcs: 0 shmat, 1 stat assert, 2 write loop, 3 shmdt, 4 stat assert,
5 exited, 6 aborted. -/
structure ShmSt where
  ppc : Nat
  cpc : Nat
  nattch : Nat
  data : Nat → Int
  log : List (Nat × Bool)

/-- The child's write loop (lines 47-49): `shm_ptr[i] = i * i` for
`i = 0..9`.  Taken as one step; it touches only the contents, which the
parent first reads after `wait`, so the granularity is unobservable. -/
def childWrites (d : Nat → Int) : Nat → Int :=
  fun i => if i < 10 then (i : Int) * (i : Int) else d i

/-- The parent's read-back check (lines 78-80):
`shm_ptr[i] == i * i` for `i = 0..9`. -/
def readCheck (d : Nat → Int) : Bool :=
  (List.range 10).all fun i => d i == (i : Int) * (i : Int)

/-- One statement of the child (lines 39-59). -/
def childStep (s : ShmSt) : ShmSt :=
  if s.cpc = 0 then { s with cpc := 1, nattch := s.nattch + 1 }
  else if s.cpc = 1 then
    if s.nattch = 1 ∨ s.nattch = 2 then
      { s with cpc := 2, log := s.log ++ [(siteChildStat1, true)] }
    else
      { s with cpc := 6, nattch := s.nattch - 1,
               log := s.log ++ [(siteChildStat1, false)] }
  else if s.cpc = 2 then { s with cpc := 3, data := childWrites s.data }
  else if s.cpc = 3 then { s with cpc := 4, nattch := s.nattch - 1 }
  else if s.cpc = 4 then
    if s.nattch = 1 then
      { s with cpc := 5, log := s.log ++ [(siteChildStat2, true)] }
    else
      { s with cpc := 6, log := s.log ++ [(siteChildStat2, false)] }
  else s

/-- One statement of the parent (lines 60-98). -/
def parentStep (s : ShmSt) : ShmSt :=
  if s.ppc = 0 then { s with ppc := 1, nattch := s.nattch + 1 }
  else if s.ppc = 1 then
    if s.nattch = 1 ∨ s.nattch = 2 then
      { s with ppc := 2, log := s.log ++ [(siteParentStat1, true)] }
    else
      { s with ppc := 8, nattch := s.nattch - 1,
               log := s.log ++ [(siteParentStat1, false)] }
  else if s.ppc = 2 then (if 5 ≤ s.cpc then { s with ppc := 3 } else s)
  else if s.ppc = 3 then
    if s.nattch = 1 then
      { s with ppc := 4, log := s.log ++ [(siteParentStat2, true)] }
    else
      { s with ppc := 8, nattch := s.nattch - 1,
               log := s.log ++ [(siteParentStat2, false)] }
  else if s.ppc = 4 then
    if readCheck s.data then
      { s with ppc := 5, log := s.log ++ [(siteParentRead, true)] }
    else
      { s with ppc := 8, nattch := s.nattch - 1,
               log := s.log ++ [(siteParentRead, false)] }
  else if s.ppc = 5 then { s with ppc := 6, nattch := s.nattch - 1 }
  else if s.ppc = 6 then
    if s.nattch = 0 then
      { s with ppc := 7, log := s.log ++ [(siteParentStat3, true)] }
    else
      { s with ppc := 8, log := s.log ++ [(siteParentStat3, false)] }
  else s

/-- State right after fork: both processes at their first statement, the
segment (created with `shm_nattch == 0`, line 29) not attached anywhere,
contents d0. -/
def shmInit (d0 : Nat → Int) : ShmSt :=
  { ppc := 0, cpc := 0, nattch := 0, data := d0, log := [] }

/-- Run the two processes under a schedule. -/
def shmRun (d0 : Nat → Int) (sched : List Bool) : ShmSt :=
  sched.foldl (fun s b => if b then parentStep s else childStep s) (shmInit d0)

/-- Whether the parent holds an attachment at this state. -/
def attachedP (s : ShmSt) : Nat := if 1 ≤ s.ppc ∧ s.ppc ≤ 5 then 1 else 0

/-- Whether the child holds an attachment at this state. -/
def attachedC (s : ShmSt) : Nat := if 1 ≤ s.cpc ∧ s.cpc ≤ 3 then 1 else 0

/-- Invariant of the post-fork machine: the attach count is exactly the
number of attached processes, the contents are the squares once the child
has written, `wait` has returned only after the child terminated, the
parent never hits a failing assertion, and every logged assertion other
than the child's post-detach one passed. -/
structure ShmInv (d0 : Nat → Int) (s : ShmSt) : Prop where
  att : s.nattch = attachedP s + attachedC s
  dataEarly : s.cpc ≤ 2 → s.data = d0
  dataLate : 3 ≤ s.cpc → readCheck s.data = true
  waitOrder : 3 ≤ s.ppc → 5 ≤ s.cpc
  pAlive : s.ppc ≠ 8
  pBound : s.ppc ≤ 7
  cBound : s.cpc ≤ 6
  logOk : ∀ e ∈ s.log, e.1 ≠ siteChildStat2 → e.2 = true

/-- The child's write loop establishes the squares the parent checks. -/
theorem readCheck_childWrites (d : Nat → Int) :
    readCheck (childWrites d) = true := by
  unfold readCheck childWrites
  rw [List.all_eq_true]
  intro i hi
  rw [List.mem_range] at hi
  simp [hi]

/-- Appending a passing entry (or an entry at the exempt site) preserves the
log part of the invariant. -/
theorem logOk_append (l : List (Nat × Bool)) (site : Nat) (b : Bool)
    (h : ∀ e ∈ l, e.1 ≠ siteChildStat2 → e.2 = true)
    (h2 : site = siteChildStat2 ∨ b = true) :
    ∀ e ∈ l ++ [(site, b)], e.1 ≠ siteChildStat2 → e.2 = true := by
  intro e he hne
  rcases List.mem_append.mp he with h1 | h1
  · exact h e h1 hne
  · have heq : e = (site, b) := by simpa using h1
    subst heq
    rcases h2 with h2 | h2
    · exact absurd h2 hne
    · exact h2

theorem childStep_inv (d0 : Nat → Int) (s : ShmSt) (h : ShmInv d0 s) :
    ShmInv d0 (childStep s) := by
  obtain ⟨att, dataEarly, dataLate, waitOrder, pAlive, pBound, cBound, logOk⟩ := h
  unfold childStep
  split_ifs with h0 h1 hA h2 h3 h4 hA2
  · -- shmat
    refine ⟨?_, ?_, ?_, ?_, pAlive, pBound, ?_, logOk⟩
    · simp only [attachedP, attachedC] at att ⊢
      dsimp only
      split_ifs at att ⊢ <;> omega
    · intro _; exact dataEarly (by omega)
    · dsimp only; intro h3x; omega
    · dsimp only; intro h3x; exact absurd (waitOrder h3x) (by omega)
    · dsimp only; omega
  · -- child stat after shmat: passes (attach count is 1 or 2)
    refine ⟨?_, ?_, ?_, ?_, pAlive, pBound, ?_, ?_⟩
    · simp only [attachedP, attachedC] at att ⊢
      dsimp only
      split_ifs at att ⊢ <;> omega
    · intro _; exact dataEarly (by omega)
    · dsimp only; intro h3x; omega
    · dsimp only; intro h3x; exact absurd (waitOrder h3x) (by omega)
    · dsimp only; omega
    · exact logOk_append s.log siteChildStat1 true logOk (Or.inr rfl)
  · -- child stat after shmat cannot fail
    exfalso
    simp only [attachedP, attachedC] at att
    split_ifs at att <;> omega
  · -- the write loop
    refine ⟨?_, ?_, ?_, ?_, pAlive, pBound, ?_, logOk⟩
    · simp only [attachedP, attachedC] at att ⊢
      dsimp only
      split_ifs at att ⊢ <;> omega
    · dsimp only; intro hle; omega
    · intro _; exact readCheck_childWrites s.data
    · dsimp only; intro h3x; exact absurd (waitOrder h3x) (by omega)
    · dsimp only; omega
  · -- shmdt
    refine ⟨?_, ?_, ?_, ?_, pAlive, pBound, ?_, logOk⟩
    · simp only [attachedP, attachedC] at att ⊢
      dsimp only
      split_ifs at att ⊢ <;> omega
    · dsimp only; intro hle; omega
    · intro _; exact dataLate (by omega)
    · dsimp only; intro h3x; exact absurd (waitOrder h3x) (by omega)
    · dsimp only; omega
  · -- child stat after shmdt, observing attach count 1: passes
    refine ⟨?_, ?_, ?_, ?_, pAlive, pBound, ?_, ?_⟩
    · simp only [attachedP, attachedC] at att ⊢
      dsimp only
      split_ifs at att ⊢ <;> omega
    · dsimp only; intro hle; omega
    · intro _; exact dataLate (by omega)
    · dsimp only; intro h3x; omega
    · dsimp only; omega
    · exact logOk_append s.log siteChildStat2 true logOk (Or.inl rfl)
  · -- child stat after shmdt, observing another count: the child aborts
    refine ⟨?_, ?_, ?_, ?_, pAlive, pBound, ?_, ?_⟩
    · simp only [attachedP, attachedC] at att ⊢
      dsimp only
      split_ifs at att ⊢ <;> omega
    · dsimp only; intro hle; omega
    · intro _; exact dataLate (by omega)
    · dsimp only; intro h3x; omega
    · dsimp only; omega
    · exact logOk_append s.log siteChildStat2 false logOk (Or.inl rfl)
  · exact ⟨att, dataEarly, dataLate, waitOrder, pAlive, pBound, cBound, logOk⟩

theorem parentStep_inv (d0 : Nat → Int) (s : ShmSt) (h : ShmInv d0 s) :
    ShmInv d0 (parentStep s) := by
  obtain ⟨att, dataEarly, dataLate, waitOrder, pAlive, pBound, cBound, logOk⟩ := h
  unfold parentStep
  split_ifs with h0 h1 hA h2 hw h3 hA2 h4 hrc h5 h6 hA3
  · -- shmat
    refine ⟨?_, dataEarly, dataLate, ?_, ?_, ?_, cBound, logOk⟩
    · simp only [attachedP, attachedC] at att ⊢
      dsimp only
      split_ifs at att ⊢ <;> omega
    · dsimp only; intro h3x; omega
    · dsimp only; omega
    · dsimp only; omega
  · -- parent stat after shmat: passes (attach count is 1 or 2)
    refine ⟨?_, dataEarly, dataLate, ?_, ?_, ?_, cBound, ?_⟩
    · simp only [attachedP, attachedC] at att ⊢
      dsimp only
      split_ifs at att ⊢ <;> omega
    · dsimp only; intro h3x; omega
    · dsimp only; omega
    · dsimp only; omega
    · exact logOk_append s.log siteParentStat1 true logOk (Or.inr rfl)
  · -- parent stat after shmat cannot fail
    exfalso
    simp only [attachedP, attachedC] at att
    split_ifs at att <;> omega
  · -- wait returns: the child has terminated
    refine ⟨?_, dataEarly, dataLate, ?_, ?_, ?_, cBound, logOk⟩
    · simp only [attachedP, attachedC] at att ⊢
      dsimp only
      split_ifs at att ⊢ <;> omega
    · dsimp only; intro _; exact hw
    · dsimp only; omega
    · dsimp only; omega
  · -- wait blocks
    exact ⟨att, dataEarly, dataLate, waitOrder, pAlive, pBound, cBound, logOk⟩
  · -- parent stat after wait: passes (only the parent is attached)
    refine ⟨?_, dataEarly, dataLate, ?_, ?_, ?_, cBound, ?_⟩
    · simp only [attachedP, attachedC] at att ⊢
      dsimp only
      split_ifs at att ⊢ <;> omega
    · dsimp only; intro _; exact waitOrder (by omega)
    · dsimp only; omega
    · dsimp only; omega
    · exact logOk_append s.log siteParentStat2 true logOk (Or.inr rfl)
  · -- parent stat after wait cannot fail
    exfalso
    have h5c := waitOrder (by omega)
    simp only [attachedP, attachedC] at att
    split_ifs at att <;> omega
  · -- the read-back loop: passes
    refine ⟨?_, dataEarly, dataLate, ?_, ?_, ?_, cBound, ?_⟩
    · simp only [attachedP, attachedC] at att ⊢
      dsimp only
      split_ifs at att ⊢ <;> omega
    · dsimp only; intro _; exact waitOrder (by omega)
    · dsimp only; omega
    · dsimp only; omega
    · exact logOk_append s.log siteParentRead true logOk (Or.inr rfl)
  · -- the read-back loop cannot fail (the child wrote before exiting)
    exfalso
    have h5c := waitOrder (by omega)
    rw [dataLate (by omega)] at hrc
    exact hrc rfl
  · -- shmdt
    refine ⟨?_, dataEarly, dataLate, ?_, ?_, ?_, cBound, logOk⟩
    · simp only [attachedP, attachedC] at att ⊢
      dsimp only
      split_ifs at att ⊢ <;> omega
    · dsimp only; intro _; exact waitOrder (by omega)
    · dsimp only; omega
    · dsimp only; omega
  · -- parent stat after shmdt, observing 0: passes
    refine ⟨?_, dataEarly, dataLate, ?_, ?_, ?_, cBound, ?_⟩
    · simp only [attachedP, attachedC] at att ⊢
      dsimp only
      split_ifs at att ⊢ <;> omega
    · dsimp only; intro _; exact waitOrder (by omega)
    · dsimp only; omega
    · dsimp only; omega
    · exact logOk_append s.log siteParentStat3 true logOk (Or.inr rfl)
  · -- parent stat after shmdt cannot fail
    exfalso
    have h5c := waitOrder (by omega)
    simp only [attachedP, attachedC] at att
    split_ifs at att <;> omega
  · exact ⟨att, dataEarly, dataLate, waitOrder, pAlive, pBound, cBound, logOk⟩

theorem shmInit_inv (d0 : Nat → Int) : ShmInv d0 (shmInit d0) := by
  refine ⟨?_, ?_, ?_, ?_, ?_, ?_, ?_, ?_⟩ <;>
    simp [shmInit, attachedP, attachedC]

/-- The invariant holds after any schedule. -/
theorem shmRun_inv (d0 : Nat → Int) (sched : List Bool) :
    ShmInv d0 (shmRun d0 sched) := by
  have hstep : ∀ (s : ShmSt), ShmInv d0 s → ∀ (l : List Bool),
      ShmInv d0 (l.foldl (fun s b => if b then parentStep s else childStep s) s) := by
    intro s hs l
    induction l generalizing s with
    | nil => exact hs
    | cons b r ih =>
      simp only [List.foldl]
      apply ih
      cases b
      · exact childStep_inv d0 s hs
      · exact parentStep_inv d0 s hs
  exact hstep (shmInit d0) (shmInit_inv d0) sched

/-- C1 counterexample: when the child runs to completion before the parent's
shmat (schedule: five child steps first), the child's post-detach IPC_STAT
observes `shm_nattch == 0`, so the line-57 assertion
`assert(buf1.shm_nattch == 1)` fails. -/
theorem shm_child_post_detach_assert_can_fail :
    (siteChildStat2, false) ∈
      (shmRun (fun _ => 0) [false, false, false, false, false]).log := by
  decide

/-- C1 amended: the attach count is 0 immediately after creation, and every
inline `shm_nattch` assertion holds on every interleaving except the child's
post-detach check (line 57), which fails on interleavings where the parent
has not yet attached when the child inspects the count after its shmdt. -/
theorem shm_attach_count_asserts (d0 : Nat → Int) (sched : List Bool) :
    ((shmRun d0 sched).log.all fun e => e.1 == siteChildStat2 || e.2) = true ∧
      (shmInit d0).nattch = 0 := by
  constructor
  · rw [List.all_eq_true]
    intro e he
    by_cases h : e.1 = siteChildStat2
    · simp [h]
    · simp [h, (shmRun_inv d0 sched).logOk e he h]
  · rfl

/-- C2: the values the child stores (i*i at index i, i = 0..9) are visible
to the parent: on every interleaving, every logged read-back assertion
`shm_ptr[i] == i * i` passed, and once wait has returned (parent pc past
the wait statement) the segment contents are exactly the squares. -/
theorem shm_parent_reads_child_squares (d0 : Nat → Int) (sched : List Bool) :
    (∀ e ∈ (shmRun d0 sched).log, e.1 = siteParentRead → e.2 = true) ∧
      (3 ≤ (shmRun d0 sched).ppc →
        ∀ i < 10, (shmRun d0 sched).data i = (i : Int) * (i : Int)) := by
  have hinv := shmRun_inv d0 sched
  constructor
  · intro e he hsite
    exact hinv.logOk e he (by rw [hsite]; decide)
  · intro hp i hi
    have h5 := hinv.waitOrder hp
    have hrc := hinv.dataLate (by omega)
    unfold readCheck at hrc
    rw [List.all_eq_true] at hrc
    have hb := hrc i (List.mem_range.mpr hi)
    simpa using hb

/-- Witness for the data-visibility theorem: the schedule that runs the
child to completion and then the whole parent; after wait the parent
observes 3*3 at index 3. -/
theorem shm_parent_reads_child_squares_witness :
    (shmRun (fun _ => 0)
        [false, false, false, false, false,
         true, true, true, true, true, true, true]).data 3 = (3 : Int) * 3 :=
  (shm_parent_reads_child_squares (fun _ => 0)
      [false, false, false, false, false,
       true, true, true, true, true, true, true]).2 (by decide) 3 (by decide)

/-! ## mmap.c: the whole program as an event trace

Every external call of mmap.c is an event; the kernel's answers (mmap
results, munmap results, the file descriptor from open) are oracle
parameters collected in `Env`.  A `Run` is the list of events a process
emits together with whether it is still alive (`ok = false` once an
`assert` fails and the process aborts, cutting the rest of the program
off).  mmap call sites are numbered 1-20 in program order; `test_memory_rw`
is represented by its two printf calls, with its assertions (which always
pass, by `rwCheck_rwWrite`) as its liveness flag. -/

/-- Kinds of external calls of the two programs. -/
inductive Call
  | mmapC | munmapC | openC | writeC | lseekC | closeC | unlinkC | printC
  | ftokC | shmgetC | shmctlC | getpidC | forkC | shmatC | shmdtC | waitC | exitC
deriving DecidableEq

/-- One event of mmap.c: the call with the data the control flow reads. -/
inductive Ev
  | mmapE (site : Nat) (hint : Option Nat) (len : Nat) (res : Option Nat)
  | munmapE (addr : Nat) (len : Nat) (res : Int)
  | openE (res : Int)
  | writeE
  | lseekE
  | closeE
  | unlinkE
  | printE
deriving DecidableEq

/-- The call kind of an event. -/
def Ev.kind : Ev → Call
  | mmapE _ _ _ _ => .mmapC
  | munmapE _ _ _ => .munmapC
  | openE _ => .openC
  | writeE => .writeC
  | lseekE => .lseekC
  | closeE => .closeC
  | unlinkE => .unlinkC
  | printE => .printC

/-- Events emitted so far and whether the process is still alive. -/
structure Run where
  events : List Ev
  ok : Bool
deriving DecidableEq

/-- Sequencing: once an assertion has aborted the process, nothing later
in the program runs. -/
def Run.seq (r : Run) (rest : Run) : Run :=
  if r.ok then { events := r.events ++ rest.events, ok := rest.ok } else r

/-- A printf call. -/
def pr : Run := { events := [.printE], ok := true }

/-- An mmap call directly followed by `assert(p != MAP_FAILED)`; on success
the rest of the program runs with the returned address. -/
def mmapAsserted (site : Nat) (hint : Option Nat) (len : Nat)
    (res : Option Nat) (k : Nat → Run) : Run :=
  match res with
  | none => { events := [.mmapE site hint len none], ok := false }
  | some a => Run.seq { events := [.mmapE site hint len (some a)], ok := true } (k a)

/-- An mmap call whose failure the program tolerates: on MAP_FAILED it
prints a diagnostic and goes on, otherwise it runs the body (mmap.c lines
215-224, 240-249, 251-263). -/
def mmapTolerated (site : Nat) (hint : Option Nat) (len : Nat)
    (res : Option Nat) (body : Nat → Run) : Run :=
  Run.seq { events := [.mmapE site hint len res], ok := true }
    (match res with
     | none => pr
     | some a => body a)

/-- The fixed-address 1GB mapping (lines 266-277): the body runs only when
mmap succeeded and returned exactly the requested address; otherwise the
program prints a diagnostic and goes on. -/
def mmapToleratedAt (site : Nat) (hint : Nat) (len : Nat)
    (res : Option Nat) (body : Nat → Run) : Run :=
  Run.seq { events := [.mmapE site (some hint) len res], ok := true }
    (match res with
     | none => pr
     | some a => if a = hint then body a else pr)

/-- `assert(munmap(addr, len) == 0)`. -/
def munmapAsserted (addr len : Nat) (res : Int) (rest : Run) : Run :=
  Run.seq { events := [.munmapE addr len res], ok := res == 0 } rest

/-- `open("/tmp/test_file", O_CREAT | O_RDWR, 0644)` with `assert(fd >= 0)`. -/
def openAsserted (fd : Int) (rest : Run) : Run :=
  Run.seq { events := [.openE fd], ok := decide (0 ≤ fd) } rest

/-- A write / lseek / close / unlink call whose result the program never
examines. -/
def plainCall (e : Ev) : Run := { events := [e], ok := true }

/-- test_memory_rw as a trace: two printf calls; its assertions are its
liveness. -/
def rwRun (chr : Nat → Int) (mem : Nat → Int) (size : Nat) : Run :=
  { events := [.printE, .printE], ok := rwCheck chr (rwWrite chr mem size) size }

/-- test_memory_rw never aborts: its read-back assertions always pass. -/
theorem rwRun_eq (chr : Nat → Int) (mem : Nat → Int) (size : Nat) :
    rwRun chr mem size = { events := [.printE, .printE], ok := true } := by
  unfold rwRun
  rw [rwCheck_rwWrite]

/-- Oracle for one execution of mmap.c: the implementation's char
conversion, the initial contents of the mapping made at each site, the
kernel's answer to the mmap call at each site, the result of the munmap
call that frees the mapping of each site, and the fd returned by open. -/
structure Env where
  chr : Nat → Int
  mems : Nat → Nat → Int
  r : Nat → Option Nat
  m : Nat → Int
  fd : Int

/-- mmap.c lines 31-62, test 1: individual alloc, rw, free (sites 1-3). -/
def test_individual_alloc_rw_free (e : Env) : Run :=
  Run.seq pr <|
  mmapAsserted 1 none 4096 (e.r 1) fun a1 =>
    Run.seq pr <| Run.seq (rwRun e.chr (e.mems 1) 4096) <|
    munmapAsserted a1 4096 (e.m 1) <| Run.seq pr <|
    mmapAsserted 2 none 2097152 (e.r 2) fun a2 =>
      Run.seq pr <| Run.seq (rwRun e.chr (e.mems 2) 2097152) <|
      munmapAsserted a2 2097152 (e.m 2) <| Run.seq pr <|
      mmapAsserted 3 none 1073741824 (e.r 3) fun a3 =>
        Run.seq pr <| Run.seq (rwRun e.chr (e.mems 3) 1073741824) <|
        munmapAsserted a3 1073741824 (e.m 3) <| Run.seq pr pr

/-- mmap.c lines 65-100, test 2: batch alloc, rw, free (sites 4-6). -/
def test_batch_alloc_rw_free (e : Env) : Run :=
  Run.seq pr <|
  mmapAsserted 4 none 4096 (e.r 4) fun a1 =>
    Run.seq pr <|
    mmapAsserted 5 none 2097152 (e.r 5) fun a2 =>
      Run.seq pr <|
      mmapAsserted 6 none 1073741824 (e.r 6) fun a3 =>
        Run.seq pr <|
        Run.seq (rwRun e.chr (e.mems 4) 4096) <|
        Run.seq (rwRun e.chr (e.mems 5) 2097152) <|
        Run.seq (rwRun e.chr (e.mems 6) 1073741824) <|
        munmapAsserted a1 4096 (e.m 4) <| Run.seq pr <|
        munmapAsserted a2 2097152 (e.m 5) <| Run.seq pr <|
        munmapAsserted a3 1073741824 (e.m 6) <| Run.seq pr pr

/-- mmap.c lines 103-135, test 3: interleaved alloc, rw, free (sites 7-9). -/
def test_interleaved_alloc_rw_free (e : Env) : Run :=
  Run.seq pr <|
  mmapAsserted 7 none 4096 (e.r 7) fun a1 =>
    Run.seq pr <| Run.seq (rwRun e.chr (e.mems 7) 4096) <|
    mmapAsserted 8 none 2097152 (e.r 8) fun a2 =>
      Run.seq pr <| Run.seq (rwRun e.chr (e.mems 8) 2097152) <|
      munmapAsserted a1 4096 (e.m 7) <| Run.seq pr <|
      mmapAsserted 9 none 1073741824 (e.r 9) fun a3 =>
        Run.seq pr <| Run.seq (rwRun e.chr (e.mems 9) 1073741824) <|
        munmapAsserted a2 2097152 (e.m 8) <| Run.seq pr <|
        munmapAsserted a3 1073741824 (e.m 9) <| Run.seq pr pr

/-- mmap.c lines 138-188, test 4: eager (MAP_POPULATE) then lazy mapping at
each page size (sites 10-15). -/
def test_eager_vs_lazy_allocation (e : Env) : Run :=
  Run.seq pr <|
  mmapAsserted 10 none 4096 (e.r 10) fun a1 =>
    Run.seq pr <| Run.seq (rwRun e.chr (e.mems 10) 4096) <|
    munmapAsserted a1 4096 (e.m 10) <|
    mmapAsserted 11 none 4096 (e.r 11) fun a2 =>
      Run.seq pr <| Run.seq (rwRun e.chr (e.mems 11) 4096) <|
      munmapAsserted a2 4096 (e.m 11) <|
      mmapAsserted 12 none 2097152 (e.r 12) fun a3 =>
        Run.seq pr <| Run.seq (rwRun e.chr (e.mems 12) 2097152) <|
        munmapAsserted a3 2097152 (e.m 12) <|
        mmapAsserted 13 none 2097152 (e.r 13) fun a4 =>
          Run.seq pr <| Run.seq (rwRun e.chr (e.mems 13) 2097152) <|
          munmapAsserted a4 2097152 (e.m 13) <|
          mmapAsserted 14 none 1073741824 (e.r 14) fun a5 =>
            Run.seq pr <| Run.seq (rwRun e.chr (e.mems 14) 1073741824) <|
            munmapAsserted a5 1073741824 (e.m 14) <|
            mmapAsserted 15 none 1073741824 (e.r 15) fun a6 =>
              Run.seq pr <| Run.seq (rwRun e.chr (e.mems 15) 1073741824) <|
              munmapAsserted a6 1073741824 (e.m 15) <|
              Run.seq pr pr

/-- mmap.c lines 191-230, test 5: file-backed mappings (open, write, 4KB
mapping at site 16, lseek + write, tolerated 2MB hugepage mapping at site
17, close, unlink). -/
def test_file_mapping_hugepages (e : Env) : Run :=
  Run.seq pr <|
  openAsserted e.fd <|
  Run.seq (plainCall .writeE) <|
  mmapAsserted 16 none 4096 (e.r 16) fun a1 =>
    Run.seq pr <| Run.seq (rwRun e.chr (e.mems 16) 4096) <|
    munmapAsserted a1 4096 (e.m 16) <|
    Run.seq (plainCall .lseekE) <| Run.seq (plainCall .writeE) <|
    Run.seq (mmapTolerated 17 none 2097152 (e.r 17) fun a2 =>
      Run.seq pr <| Run.seq (rwRun e.chr (e.mems 17) 2097152) <|
      munmapAsserted a2 2097152 (e.m 17) { events := [], ok := true }) <|
    Run.seq (plainCall .closeE) <| Run.seq (plainCall .unlinkE) pr

/-- The fixed base address 0x08000000 of test_linear_mapping. -/
def baseAddr : Nat := 134217728

/-- mmap.c lines 233-280, test 6: fixed-address (MAP_FIXED) mappings at
base, base + 0x1000000 and base + 0x20000000 (sites 18-20); each failure
is tolerated, and the 1GB body additionally requires the returned address
to equal the requested one. -/
def test_linear_mapping (e : Env) : Run :=
  Run.seq pr <|
  Run.seq (mmapTolerated 18 (some baseAddr) 4096 (e.r 18) fun a1 =>
    Run.seq pr <| Run.seq (rwRun e.chr (e.mems 18) 4096) <|
    munmapAsserted a1 4096 (e.m 18) pr) <|
  Run.seq (mmapTolerated 19 (some (baseAddr + 16777216)) 2097152 (e.r 19) fun a2 =>
    Run.seq pr <| Run.seq (rwRun e.chr (e.mems 19) 2097152) <|
    munmapAsserted a2 2097152 (e.m 19) pr) <|
  Run.seq (mmapToleratedAt 20 (baseAddr + 536870912) 1073741824 (e.r 20) fun a3 =>
    Run.seq pr <| Run.seq (rwRun e.chr (e.mems 20) 1073741824) <|
    munmapAsserted a3 1073741824 (e.m 20) pr) pr

/-- main of mmap.c (lines 282-294): the six tests in order, with the final
printf and `return 0` reached only if no assertion aborted. -/
def mmapMain (e : Env) : Run :=
  Run.seq pr <|
  Run.seq (test_individual_alloc_rw_free e) <|
  Run.seq (test_batch_alloc_rw_free e) <|
  Run.seq (test_interleaved_alloc_rw_free e) <|
  Run.seq (test_eager_vs_lazy_allocation e) <|
  Run.seq (test_file_mapping_hugepages e) <|
  Run.seq (test_linear_mapping e) pr

/-- Exit status of the mmap program: 0 when main runs to its `return 0`,
none when an assertion aborted the process. -/
def mmapMainStatus (e : Env) : Option Int :=
  if (mmapMain e).ok then some 0 else none

/-! ## Failure handling of both programs

`Ev.failed` marks a failed result of a syscall whose result the program
examines; `Ev.fatalFailed` excludes the mapping failures the program
deliberately tolerates (the file-backed 2MB hugepage mapping, site 17, and
the three MAP_FIXED linear mappings, sites 18-20).  For shm.c the checked
failure branches and their exit codes are modelled by `ShmEnv`,
`shmParentTrace`/`shmChildTrace` and `shmParentExit`/`shmChildExit`. -/

/-- mmap call sites whose failure the program logs and skips. -/
def toleratedSite (s : Nat) : Bool := s == 17 || s == 18 || s == 19 || s == 20

/-- A failed result of a checked syscall of mmap.c. -/
def Ev.failed : Ev → Bool
  | .mmapE _ _ _ none => true
  | .munmapE _ _ r => r != 0
  | .openE fd => decide (fd < 0)
  | _ => false

/-- A failed checked syscall that is not one of the tolerated mappings. -/
def Ev.fatalFailed : Ev → Bool
  | .mmapE s _ _ none => !toleratedSite s
  | .munmapE _ _ r => r != 0
  | .openE fd => decide (fd < 0)
  | _ => false

/-- Some event strictly follows a failed syscall in the trace. -/
def continuesAfterFail : List Ev → Bool
  | [] => false
  | e :: rest => (e.failed && !rest.isEmpty) || continuesAfterFail rest

/-- No event at all follows a non-tolerated failure in the trace. -/
def noEventAfterFatal : List Ev → Bool
  | [] => true
  | e :: rest => if e.fatalFailed then rest.isEmpty else noEventAfterFatal rest

/-- A run in which the kernel grants every request except the 2MB
file-backed hugepage mapping (site 17), which fails; all other mmap calls
return address 1000 * site. -/
def envSkip : Env :=
  { chr := fun n => (n : Int), mems := fun _ _ => 0,
    r := fun s => if s = 17 then none else some (1000 * s),
    m := fun _ => 0, fd := 3 }

/-- A run in which the kernel grants every request until the batch test's
1GB mmap (site 6), which fails and makes the assert abort while the batch
4KB and 2MB mappings are still mapped. -/
def envBatchAbort : Env :=
  { chr := fun n => (n : Int), mems := fun _ _ => 0,
    r := fun s => if s = 6 then none else some (1000 * s),
    m := fun _ => 0, fd := 3 }

/-- The checked syscall results along shm.c's branches: shmget (line 16),
the first shmctl IPC_STAT (line 23), fork (line 33), the child's shmdt
(line 50), the parent's shmdt (line 82), and shmctl IPC_RMID (line 91). -/
structure ShmEnv where
  shmgetOk : Bool
  statOk : Bool
  forkOk : Bool
  childShmdtOk : Bool
  parentShmdtOk : Bool
  rmidOk : Bool

/-- How a process of shm.c leaves main: an explicit status, or the
valueless `return;` of line 25 whose status is indeterminate. -/
inductive CExit
  | code (n : Int)
  | noValue
deriving DecidableEq

/-- Exit of the parent process of shm.c along its checked branches (the
remaining assertions are treated by the interleaving model above). -/
def shmParentExit (o : ShmEnv) : CExit :=
  if o.shmgetOk then
    if o.statOk then
      if o.forkOk then
        if o.parentShmdtOk then
          if o.rmidOk then .code 0 else .code 1
        else .code 1
      else .code 1
    else .noValue
  else .code 1

/-- Exit of the child process of shm.c (none when the child never exists
because an earlier step failed). -/
def shmChildExit (o : ShmEnv) : Option CExit :=
  if o.shmgetOk then
    if o.statOk then
      if o.forkOk then
        if o.childShmdtOk then some (.code 0) else some (.code 1)
      else none
    else none
  else none

/-- External calls of the parent process of shm.c in program order,
stopping where a checked syscall fails (perror output counts as a print
call); getpid is the one in the line-28 assert. -/
def shmParentTrace (o : ShmEnv) : List Call :=
  [.ftokC, .shmgetC] ++
  if o.shmgetOk then
    [.shmctlC] ++
    if o.statOk then
      [.getpidC, .forkC] ++
      if o.forkOk then
        [.shmatC, .shmctlC, .waitC, .shmctlC, .shmdtC] ++
        if o.parentShmdtOk then
          [.shmctlC, .shmctlC] ++ if o.rmidOk then [.printC] else [.printC]
        else [.printC]
      else [.printC]
    else [.printC]
  else [.printC]

/-- External calls of the child process of shm.c in program order. -/
def shmChildTrace (o : ShmEnv) : List Call :=
  if o.shmgetOk then
    if o.statOk then
      if o.forkOk then
        [.shmatC, .shmctlC, .shmdtC] ++
        (if o.childShmdtOk then [.shmctlC, .exitC] else [.printC, .exitC])
      else []
    else []
  else []

/-- A run on which any non-tolerated checked failure is the last event and
kills the process. -/
def StopsOnFatal (r : Run) : Prop :=
  noEventAfterFatal r.events = true ∧
    (r.events.any Ev.fatalFailed = true → r.ok = false)

theorem noEventAfterFatal_append (l1 l2 : List Ev)
    (h : l1.any Ev.fatalFailed = false) :
    noEventAfterFatal (l1 ++ l2) = noEventAfterFatal l2 := by
  induction l1 with
  | nil => rfl
  | cons e rest ih =>
    rw [List.any_cons] at h
    rw [Bool.or_eq_false_iff] at h
    rw [List.cons_append]
    simp only [noEventAfterFatal, h.1, Bool.false_eq_true, if_false]
    exact ih h.2

theorem stops_seq (r rest : Run) (hr : StopsOnFatal r) (hrest : StopsOnFatal rest) :
    StopsOnFatal (r.seq rest) := by
  unfold Run.seq
  by_cases h : r.ok = true
  · simp only [h, if_true]
    have hclean : r.events.any Ev.fatalFailed = false := by
      by_cases hany : r.events.any Ev.fatalFailed = true
      · rw [hr.2 hany] at h; exact absurd h (by simp)
      · simpa using hany
    constructor
    · simp only
      rw [noEventAfterFatal_append r.events rest.events hclean]
      exact hrest.1
    · simp only [List.any_append, hclean, Bool.false_or]
      exact hrest.2
  · simp only [h, if_false]
    exact hr

theorem stops_event (ev : Ev) (ok : Bool) (h : ev.fatalFailed = true → ok = false) :
    StopsOnFatal { events := [ev], ok := ok } := by
  constructor
  · show noEventAfterFatal [ev] = true
    unfold noEventAfterFatal
    split <;> rfl
  · simp only [List.any_cons, List.any_nil, Bool.or_false]
    exact h

/-- Convenience form for events that are never fatal failures. -/
theorem stops_event_clean (ev : Ev) (ok : Bool) (h : ev.fatalFailed = false) :
    StopsOnFatal { events := [ev], ok := ok } :=
  stops_event ev ok (by intro hx; rw [h] at hx; exact absurd hx (by simp))

theorem stops_pr : StopsOnFatal pr :=
  stops_event_clean .printE true rfl

theorem stops_rwRun (chr mem : Nat → Int) (size : Nat) :
    StopsOnFatal (rwRun chr mem size) := by
  rw [rwRun_eq]
  constructor
  · rfl
  · intro h; exact absurd h (by decide)

theorem stops_mmapAsserted (site : Nat) (hint : Option Nat) (len : Nat)
    (res : Option Nat) (k : Nat → Run) (hk : ∀ a, StopsOnFatal (k a)) :
    StopsOnFatal (mmapAsserted site hint len res k) := by
  cases res with
  | none =>
    simp only [mmapAsserted]
    constructor
    · show noEventAfterFatal [_] = true
      unfold noEventAfterFatal
      split <;> rfl
    · intro _; rfl
  | some a =>
    simp only [mmapAsserted]
    exact stops_seq _ _ (stops_event_clean _ true rfl) (hk a)

theorem stops_mmapTolerated (site : Nat) (hint : Option Nat) (len : Nat)
    (res : Option Nat) (body : Nat → Run)
    (hs : toleratedSite site = true) (hbody : ∀ a, StopsOnFatal (body a)) :
    StopsOnFatal (mmapTolerated site hint len res body) := by
  unfold mmapTolerated
  apply stops_seq
  · apply stops_event
    cases res with
    | none =>
      intro h
      simp only [Ev.fatalFailed, hs] at h
      exact absurd h (by simp)
    | some a =>
      intro h
      rw [show (Ev.mmapE site hint len (some a)).fatalFailed = false from rfl] at h
      exact absurd h (by simp)
  · cases res with
    | none => exact stops_pr
    | some a => exact hbody a

theorem stops_mmapToleratedAt (site : Nat) (hint : Nat) (len : Nat)
    (res : Option Nat) (body : Nat → Run)
    (hs : toleratedSite site = true) (hbody : ∀ a, StopsOnFatal (body a)) :
    StopsOnFatal (mmapToleratedAt site hint len res body) := by
  unfold mmapToleratedAt
  apply stops_seq
  · apply stops_event
    cases res with
    | none =>
      intro h
      simp only [Ev.fatalFailed, hs] at h
      exact absurd h (by simp)
    | some a =>
      intro h
      rw [show (Ev.mmapE site (some hint) len (some a)).fatalFailed = false from rfl] at h
      exact absurd h (by simp)
  · cases res with
    | none => exact stops_pr
    | some a =>
      by_cases ha : a = hint
      · simp only [ha, if_true]
        exact hbody hint
      · simp only [ha, if_false]
        exact stops_pr

theorem stops_munmapAsserted (addr len : Nat) (res : Int) (rest : Run)
    (hrest : StopsOnFatal rest) :
    StopsOnFatal (munmapAsserted addr len res rest) := by
  unfold munmapAsserted
  apply stops_seq _ _ _ hrest
  apply stops_event
  intro h
  rw [show (Ev.munmapE addr len res).fatalFailed = (res != 0) from rfl] at h
  rw [bne_iff_ne] at h
  simp [h]

theorem stops_openAsserted (fd : Int) (rest : Run) (hrest : StopsOnFatal rest) :
    StopsOnFatal (openAsserted fd rest) := by
  unfold openAsserted
  apply stops_seq _ _ _ hrest
  apply stops_event
  intro h
  rw [show (Ev.openE fd).fatalFailed = decide (fd < 0) from rfl] at h
  rw [decide_eq_true_eq] at h
  simp only [decide_eq_false_iff_not]
  omega

theorem stops_plainCall (ev : Ev) (h : ev.fatalFailed = false) :
    StopsOnFatal (plainCall ev) :=
  stops_event_clean ev true h

theorem stops_nil : StopsOnFatal { events := [], ok := true } :=
  ⟨rfl, by intro h; exact absurd h (by decide)⟩

theorem stops_test_individual (e : Env) :
    StopsOnFatal (test_individual_alloc_rw_free e) := by
  unfold test_individual_alloc_rw_free
  apply stops_seq _ _ stops_pr
  apply stops_mmapAsserted; intro a1
  apply stops_seq _ _ stops_pr
  apply stops_seq _ _ (stops_rwRun _ _ _)
  apply stops_munmapAsserted
  apply stops_seq _ _ stops_pr
  apply stops_mmapAsserted; intro a2
  apply stops_seq _ _ stops_pr
  apply stops_seq _ _ (stops_rwRun _ _ _)
  apply stops_munmapAsserted
  apply stops_seq _ _ stops_pr
  apply stops_mmapAsserted; intro a3
  apply stops_seq _ _ stops_pr
  apply stops_seq _ _ (stops_rwRun _ _ _)
  apply stops_munmapAsserted
  exact stops_seq _ _ stops_pr stops_pr

theorem stops_test_batch (e : Env) :
    StopsOnFatal (test_batch_alloc_rw_free e) := by
  unfold test_batch_alloc_rw_free
  apply stops_seq _ _ stops_pr
  apply stops_mmapAsserted; intro a1
  apply stops_seq _ _ stops_pr
  apply stops_mmapAsserted; intro a2
  apply stops_seq _ _ stops_pr
  apply stops_mmapAsserted; intro a3
  apply stops_seq _ _ stops_pr
  apply stops_seq _ _ (stops_rwRun _ _ _)
  apply stops_seq _ _ (stops_rwRun _ _ _)
  apply stops_seq _ _ (stops_rwRun _ _ _)
  apply stops_munmapAsserted
  apply stops_seq _ _ stops_pr
  apply stops_munmapAsserted
  apply stops_seq _ _ stops_pr
  apply stops_munmapAsserted
  exact stops_seq _ _ stops_pr stops_pr

theorem stops_test_interleaved (e : Env) :
    StopsOnFatal (test_interleaved_alloc_rw_free e) := by
  unfold test_interleaved_alloc_rw_free
  apply stops_seq _ _ stops_pr
  apply stops_mmapAsserted; intro a1
  apply stops_seq _ _ stops_pr
  apply stops_seq _ _ (stops_rwRun _ _ _)
  apply stops_mmapAsserted; intro a2
  apply stops_seq _ _ stops_pr
  apply stops_seq _ _ (stops_rwRun _ _ _)
  apply stops_munmapAsserted
  apply stops_seq _ _ stops_pr
  apply stops_mmapAsserted; intro a3
  apply stops_seq _ _ stops_pr
  apply stops_seq _ _ (stops_rwRun _ _ _)
  apply stops_munmapAsserted
  apply stops_seq _ _ stops_pr
  apply stops_munmapAsserted
  exact stops_seq _ _ stops_pr stops_pr

theorem stops_test_eager_lazy (e : Env) :
    StopsOnFatal (test_eager_vs_lazy_allocation e) := by
  unfold test_eager_vs_lazy_allocation
  apply stops_seq _ _ stops_pr
  apply stops_mmapAsserted; intro a1
  apply stops_seq _ _ stops_pr
  apply stops_seq _ _ (stops_rwRun _ _ _)
  apply stops_munmapAsserted
  apply stops_mmapAsserted; intro a2
  apply stops_seq _ _ stops_pr
  apply stops_seq _ _ (stops_rwRun _ _ _)
  apply stops_munmapAsserted
  apply stops_mmapAsserted; intro a3
  apply stops_seq _ _ stops_pr
  apply stops_seq _ _ (stops_rwRun _ _ _)
  apply stops_munmapAsserted
  apply stops_mmapAsserted; intro a4
  apply stops_seq _ _ stops_pr
  apply stops_seq _ _ (stops_rwRun _ _ _)
  apply stops_munmapAsserted
  apply stops_mmapAsserted; intro a5
  apply stops_seq _ _ stops_pr
  apply stops_seq _ _ (stops_rwRun _ _ _)
  apply stops_munmapAsserted
  apply stops_mmapAsserted; intro a6
  apply stops_seq _ _ stops_pr
  apply stops_seq _ _ (stops_rwRun _ _ _)
  apply stops_munmapAsserted
  exact stops_seq _ _ stops_pr stops_pr

theorem stops_test_file (e : Env) :
    StopsOnFatal (test_file_mapping_hugepages e) := by
  unfold test_file_mapping_hugepages
  apply stops_seq _ _ stops_pr
  apply stops_openAsserted
  apply stops_seq _ _ (stops_plainCall .writeE rfl)
  apply stops_mmapAsserted; intro a1
  apply stops_seq _ _ stops_pr
  apply stops_seq _ _ (stops_rwRun _ _ _)
  apply stops_munmapAsserted
  apply stops_seq _ _ (stops_plainCall .lseekE rfl)
  apply stops_seq _ _ (stops_plainCall .writeE rfl)
  apply stops_seq
  · apply stops_mmapTolerated
    · rfl
    · intro a2
      apply stops_seq _ _ stops_pr
      apply stops_seq _ _ (stops_rwRun _ _ _)
      exact stops_munmapAsserted _ _ _ _ stops_nil
  · apply stops_seq _ _ (stops_plainCall .closeE rfl)
    exact stops_seq _ _ (stops_plainCall .unlinkE rfl) stops_pr

theorem stops_test_linear (e : Env) :
    StopsOnFatal (test_linear_mapping e) := by
  unfold test_linear_mapping
  apply stops_seq _ _ stops_pr
  apply stops_seq
  · apply stops_mmapTolerated
    · rfl
    · intro a1
      apply stops_seq _ _ stops_pr
      apply stops_seq _ _ (stops_rwRun _ _ _)
      exact stops_munmapAsserted _ _ _ _ stops_pr
  apply stops_seq
  · apply stops_mmapTolerated
    · rfl
    · intro a2
      apply stops_seq _ _ stops_pr
      apply stops_seq _ _ (stops_rwRun _ _ _)
      exact stops_munmapAsserted _ _ _ _ stops_pr
  apply stops_seq _ _ _ stops_pr
  apply stops_mmapToleratedAt
  · rfl
  · intro a3
    apply stops_seq _ _ stops_pr
    apply stops_seq _ _ (stops_rwRun _ _ _)
    exact stops_munmapAsserted _ _ _ _ stops_pr

theorem stops_mmapMain (e : Env) : StopsOnFatal (mmapMain e) := by
  unfold mmapMain
  apply stops_seq _ _ stops_pr
  apply stops_seq _ _ (stops_test_individual e)
  apply stops_seq _ _ (stops_test_batch e)
  apply stops_seq _ _ (stops_test_interleaved e)
  apply stops_seq _ _ (stops_test_eager_lazy e)
  apply stops_seq _ _ (stops_test_file e)
  exact stops_seq _ _ (stops_test_linear e) stops_pr

/-- C4 counterexample: when the 2MB file-backed hugepage mapping (mmap.c
line 215, site 17) fails, the program prints "skipping" and keeps
executing the remaining test steps: a syscall fails and events follow it
in the trace. -/
theorem syscall_failure_can_continue :
    continuesAfterFail (mmapMain envSkip).events = true := by
  simp only [mmapMain, test_individual_alloc_rw_free, test_batch_alloc_rw_free,
    test_interleaved_alloc_rw_free, test_eager_vs_lazy_allocation,
    test_file_mapping_hugepages, test_linear_mapping, rwRun_eq]
  decide

/-- C4 amended: every unexpected result of a checked syscall aborts the
process on the spot - nothing follows it in the trace - except the four
tolerated mapping failures (the 2MB file-backed hugepage mapping and the
three MAP_FIXED linear mappings), which the program logs and skips; in
shm.c every checked failing syscall makes main (or the child) print a
diagnostic and return immediately, so each failing branch's whole call
trace is the prefix up to the failure plus that diagnostic. -/
theorem checked_failures_abort_except_tolerated :
    (∀ e : Env, noEventAfterFatal (mmapMain e).events = true) ∧
      (∀ b c d e2 f : Bool, shmParentTrace ⟨false, b, c, d, e2, f⟩ =
        [.ftokC, .shmgetC, .printC]) ∧
      (∀ c d e2 f : Bool, shmParentTrace ⟨true, false, c, d, e2, f⟩ =
        [.ftokC, .shmgetC, .shmctlC, .printC]) ∧
      (∀ d e2 f : Bool, shmParentTrace ⟨true, true, false, d, e2, f⟩ =
        [.ftokC, .shmgetC, .shmctlC, .getpidC, .forkC, .printC]) ∧
      (∀ d f : Bool, shmParentTrace ⟨true, true, true, d, false, f⟩ =
        [.ftokC, .shmgetC, .shmctlC, .getpidC, .forkC,
         .shmatC, .shmctlC, .waitC, .shmctlC, .shmdtC, .printC]) ∧
      (∀ e2 f : Bool, shmChildTrace ⟨true, true, true, false, e2, f⟩ =
        [.shmatC, .shmctlC, .shmdtC, .printC, .exitC]) :=
  ⟨fun e => (stops_mmapMain e).1,
   fun _ _ _ _ _ => rfl, fun _ _ _ _ => rfl, fun _ _ _ => rfl,
   fun _ _ => rfl, fun _ _ => rfl⟩

/-- C5 counterexample: in the run where the tolerated 2MB file-backed
mapping fails, a syscall has failed, no assertion aborts, and the mmap
program still exits with status 0, not 1. -/
theorem failing_syscall_can_exit_zero :
    (mmapMain envSkip).events.any Ev.failed = true ∧
      mmapMainStatus envSkip = some 0 := by
  simp only [mmapMainStatus, mmapMain, test_individual_alloc_rw_free,
    test_batch_alloc_rw_free, test_interleaved_alloc_rw_free,
    test_eager_vs_lazy_allocation, test_file_mapping_hugepages,
    test_linear_mapping, rwRun_eq]
  decide

/-- C5 amended: the shm program exits 0 on the all-success path and 1 on
every checked failing-syscall path except the IPC_STAT failure of line 23,
where the valueless `return;` of line 25 carries no status; the mmap
program never exits 1 - whenever it terminates normally its status is 0
(tolerated mapping failures included), and any other unexpected result
aborts the process through assert. -/
theorem exit_status_zero_one_or_abort :
    (∀ b c d e2 f : Bool, shmParentExit ⟨false, b, c, d, e2, f⟩ = .code 1) ∧
      (∀ c d e2 f : Bool, shmParentExit ⟨true, false, c, d, e2, f⟩ = .noValue) ∧
      (∀ d e2 f : Bool, shmParentExit ⟨true, true, false, d, e2, f⟩ = .code 1) ∧
      (∀ d f : Bool, shmParentExit ⟨true, true, true, d, false, f⟩ = .code 1) ∧
      (∀ d : Bool, shmParentExit ⟨true, true, true, d, true, false⟩ = .code 1) ∧
      (∀ d : Bool, shmParentExit ⟨true, true, true, d, true, true⟩ = .code 0) ∧
      (∀ e2 f : Bool, shmChildExit ⟨true, true, true, false, e2, f⟩ = some (.code 1)) ∧
      (∀ e2 f : Bool, shmChildExit ⟨true, true, true, true, e2, f⟩ = some (.code 0)) ∧
      (∀ e : Env, (mmapMainStatus e == some 1) = false ∧
        (!(mmapMain e).ok || (mmapMainStatus e == some 0)) = true) := by
  refine ⟨fun _ _ _ _ _ => rfl, fun _ _ _ _ => rfl, fun _ _ _ => rfl,
    fun _ _ => rfl, fun _ => rfl, fun _ => rfl, fun _ _ => rfl, fun _ _ => rfl, ?_⟩
  intro e
  unfold mmapMainStatus
  by_cases h : (mmapMain e).ok = true <;> simp [h]

/-- The six syscalls the spec names as the programs' only interfaces. -/
def specClaimedCalls : List Call :=
  [.mmapC, .munmapC, .shmgetC, .shmatC, .shmdtC, .shmctlC]

/-- All external calls the two programs actually make. -/
def extendedCalls : List Call :=
  [.mmapC, .munmapC, .shmgetC, .shmatC, .shmdtC, .shmctlC,
   .openC, .writeC, .lseekC, .closeC, .unlinkC, .printC,
   .ftokC, .getpidC, .forkC, .waitC, .exitC]

/-- C7 counterexample: the mmap program calls open (and shm.c calls fork),
neither of which is among the six syscalls the spec lists. -/
theorem external_calls_beyond_spec_list :
    Call.openC ∈ (mmapMain envSkip).events.map Ev.kind ∧
      Call.openC ∉ specClaimedCalls ∧
      Call.forkC ∈ shmParentTrace ⟨true, true, true, true, true, true⟩ ∧
      Call.forkC ∉ specClaimedCalls := by
  refine ⟨?_, by decide, by decide, by decide⟩
  simp only [mmapMain, test_individual_alloc_rw_free, test_batch_alloc_rw_free,
    test_interleaved_alloc_rw_free, test_eager_vs_lazy_allocation,
    test_file_mapping_hugepages, test_linear_mapping, rwRun_eq]
  decide

theorem Ev_kind_mem_extended (ev : Ev) : ev.kind ∈ extendedCalls := by
  cases ev <;> simp [Ev.kind, extendedCalls]

/-- C7 amended: besides mmap, munmap, shmget, shmat, shmdt and shmctl, the
programs also invoke ftok, getpid, fork, wait, open, write, lseek, close,
unlink and stdout/stderr output (printf/perror), plus process exit; on
every path all external calls fall within this extended list. -/
theorem external_calls_within_extended_list :
    (∀ e : Env,
      ((mmapMain e).events.all fun ev => decide (ev.kind ∈ extendedCalls)) = true) ∧
      (∀ a b c d e2 f : Bool,
        ((shmParentTrace ⟨a, b, c, d, e2, f⟩ ++ shmChildTrace ⟨a, b, c, d, e2, f⟩).all
          fun k => decide (k ∈ extendedCalls)) = true) := by
  constructor
  · intro e
    rw [List.all_eq_true]
    intro ev _
    exact decide_eq_true (Ev_kind_mem_extended ev)
  · intro a b c d e2 f
    cases a <;> cases b <;> cases c <;> cases d <;> cases e2 <;> cases f <;> decide

/-! ## mmap / munmap pairing (C10)

`isLiveMmapAt a l` marks an mmap success for region (a, l) that the
program goes on to hold (at site 20 the program drops the mapping unless
it landed exactly at the requested address, the one case mmap.c never
frees); `isMunmapAt a l` marks a munmap call for that region.  `Bal r
debt` says that whenever the run ends with the process alive, its munmap
calls for each region number its held mmap successes plus the regions the
enclosing context still has mapped (`debt`). -/

/-- A munmap call for region (a, l). -/
def isMunmapAt (a l : Nat) : Ev → Bool
  | .munmapE a2 l2 _ => a2 == a && l2 == l
  | _ => false

/-- An mmap success for region (a, l) whose mapping the program holds. -/
def isLiveMmapAt (a l : Nat) : Ev → Bool
  | .mmapE s hint l2 (some a2) => a2 == a && l2 == l && (s != 20 || hint == some a2)
  | _ => false

/-- A munmap call that returned 0 (non-munmap events pass vacuously). -/
def munmapRetZero : Ev → Bool
  | .munmapE _ _ r => r == 0
  | _ => true

/-- Balance of a run relative to the enclosing context's outstanding
regions. -/
def Bal (r : Run) (debt : Nat → Nat → Nat) : Prop :=
  r.ok = true →
    (∀ a l, r.events.countP (isMunmapAt a l) =
      r.events.countP (isLiveMmapAt a l) + debt a l) ∧
    r.events.all munmapRetZero = true

/-- Sequencing after an alive head reduces to concatenation. -/
theorem seq_true (evs : List Ev) (rest : Run) :
    Run.seq { events := evs, ok := true } rest =
      { events := evs ++ rest.events, ok := rest.ok } := by
  unfold Run.seq
  exact if_pos rfl

theorem Bal_congr (r : Run) (d d2 : Nat → Nat → Nat) (h : Bal r d)
    (heq : ∀ a l, d2 a l = d a l) : Bal r d2 := by
  intro hok
  obtain ⟨h1, h2⟩ := h hok
  exact ⟨fun a l => by rw [heq a l]; exact h1 a l, h2⟩

theorem Bal_seq (r rest : Run) (d1 d2 d3 : Nat → Nat → Nat)
    (hr : Bal r d1) (hrest : Bal rest d2)
    (heq : ∀ a l, d3 a l = d1 a l + d2 a l) :
    Bal (r.seq rest) d3 := by
  intro hok
  unfold Run.seq at hok ⊢
  by_cases h : r.ok = true
  · rw [if_pos h] at hok ⊢
    simp only at hok
    obtain ⟨hc1, hall1⟩ := hr h
    obtain ⟨hc2, hall2⟩ := hrest hok
    constructor
    · intro a l
      simp only [List.countP_append]
      rw [hc1 a l, hc2 a l, heq a l]
      ring
    · simp only [List.all_append]
      rw [hall1, hall2]
      rfl
  · rw [if_neg h] at hok
    exact absurd hok h

theorem Bal_seq0 (r rest : Run) (d : Nat → Nat → Nat)
    (hr : Bal r (fun _ _ => 0)) (hrest : Bal rest d) : Bal (r.seq rest) d :=
  Bal_seq r rest _ d d hr hrest (by intro a l; simp)

theorem Bal_event0 (ev : Ev) (ok : Bool)
    (h1 : ∀ a l, isMunmapAt a l ev = false)
    (h2 : ∀ a l, isLiveMmapAt a l ev = false)
    (h3 : munmapRetZero ev = true) :
    Bal { events := [ev], ok := ok } (fun _ _ => 0) := by
  intro _
  constructor
  · intro a l
    simp [List.countP_cons, h1, h2]
  · simp [h3]

theorem Bal_pr : Bal pr (fun _ _ => 0) :=
  Bal_event0 .printE true (fun _ _ => rfl) (fun _ _ => rfl) rfl

theorem Bal_headEvent (ev : Ev) (ok : Bool) (rest : Run) (d : Nat → Nat → Nat)
    (h1 : ∀ a l, isMunmapAt a l ev = false)
    (h2 : ∀ a l, isLiveMmapAt a l ev = false)
    (h3 : munmapRetZero ev = true)
    (hrest : Bal rest d) :
    Bal (Run.seq { events := [ev], ok := ok } rest) d :=
  Bal_seq0 _ _ _ (Bal_event0 ev ok h1 h2 h3) hrest

theorem Bal_rwRun (chr mem : Nat → Int) (size : Nat) :
    Bal (rwRun chr mem size) (fun _ _ => 0) := by
  rw [rwRun_eq]
  intro _
  constructor
  · intro a l
    simp [List.countP_cons, isMunmapAt, isLiveMmapAt]
  · simp [munmapRetZero]

theorem Bal_openAsserted (fd : Int) (rest : Run) (d : Nat → Nat → Nat)
    (hrest : Bal rest d) : Bal (openAsserted fd rest) d := by
  unfold openAsserted
  exact Bal_headEvent _ _ _ _ (fun _ _ => rfl) (fun _ _ => rfl) rfl hrest

theorem Bal_plainCall (ev : Ev) (rest : Run) (d : Nat → Nat → Nat)
    (h1 : ∀ a l, isMunmapAt a l ev = false)
    (h2 : ∀ a l, isLiveMmapAt a l ev = false)
    (h3 : munmapRetZero ev = true)
    (hrest : Bal rest d) :
    Bal (Run.seq (plainCall ev) rest) d :=
  Bal_headEvent ev true rest d h1 h2 h3 hrest

theorem Bal_munmapAsserted (a0 l0 : Nat) (res : Int) (rest : Run)
    (d d2 : Nat → Nat → Nat)
    (heq : ∀ a l, d2 a l = d a l + (if a0 = a ∧ l0 = l then 1 else 0))
    (hrest : Bal rest d) :
    Bal (munmapAsserted a0 l0 res rest) d2 := by
  intro hok
  unfold munmapAsserted Run.seq at hok ⊢
  by_cases h : (res == 0) = true
  · rw [if_pos h] at hok ⊢
    simp only at hok
    obtain ⟨hc, hall⟩ := hrest hok
    constructor
    · intro a l
      simp only [List.countP_cons, List.countP_nil, List.cons_append,
        List.nil_append]
      rw [show isMunmapAt a l (Ev.munmapE a0 l0 res) = (a0 == a && l0 == l) from rfl]
      rw [show isLiveMmapAt a l (Ev.munmapE a0 l0 res) = false from rfl]
      rw [hc a l, heq a l]
      simp only [Bool.and_eq_true, beq_iff_eq, Bool.false_eq_true, if_false]
      ring
    · simp only [List.cons_append, List.nil_append, List.all_cons, hall]
      rw [show munmapRetZero (Ev.munmapE a0 l0 res) = (res == 0) from rfl, h]
      rfl
  · rw [if_neg h] at hok
    exact absurd hok h

theorem Bal_mmapAsserted (site : Nat) (hint : Option Nat) (len : Nat)
    (res : Option Nat) (k : Nat → Run) (d : Nat → Nat → Nat)
    (hsite : (site == 20) = false)
    (hk : ∀ a0, Bal (k a0)
      (fun a l => d a l + (if a0 = a ∧ len = l then 1 else 0))) :
    Bal (mmapAsserted site hint len res k) d := by
  cases res with
  | none =>
    intro hok
    exact absurd hok (by simp [mmapAsserted])
  | some a0 =>
    intro hok
    simp only [mmapAsserted, seq_true] at hok ⊢
    try simp only at hok
    obtain ⟨hc, hall⟩ := hk a0 hok
    constructor
    · intro a l
      simp only [List.countP_cons, List.countP_nil, List.cons_append,
        List.nil_append]
      rw [show isMunmapAt a l (Ev.mmapE site hint len (some a0)) = false from rfl]
      rw [show isLiveMmapAt a l (Ev.mmapE site hint len (some a0)) =
        (a0 == a && len == l && (site != 20 || hint == some a0)) from rfl]
      rw [show (site != 20) = !(site == 20) from rfl, hsite]
      rw [hc a l]
      simp only [Bool.not_false, Bool.true_or, Bool.and_true, Bool.and_eq_true,
        beq_iff_eq, Bool.false_eq_true, if_false]
      ring
    · simp only [List.cons_append, List.nil_append, List.all_cons, hall]
      rfl

theorem Bal_mmapTolerated (site : Nat) (hint : Option Nat) (len : Nat)
    (res : Option Nat) (body : Nat → Run)
    (hsite : (site == 20) = false)
    (hbody : ∀ a0, Bal (body a0)
      (fun a l => if a0 = a ∧ len = l then 1 else 0)) :
    Bal (mmapTolerated site hint len res body) (fun _ _ => 0) := by
  cases res with
  | none =>
    intro _
    constructor
    · intro a l
      simp [mmapTolerated, seq_true, pr, List.countP_cons, isMunmapAt, isLiveMmapAt]
    · simp [mmapTolerated, seq_true, pr, munmapRetZero]
  | some a0 =>
    intro hok
    simp only [mmapTolerated, seq_true] at hok ⊢
    try simp only at hok
    obtain ⟨hc, hall⟩ := hbody a0 hok
    constructor
    · intro a l
      simp only [List.countP_cons, List.countP_nil, List.cons_append,
        List.nil_append]
      rw [show isMunmapAt a l (Ev.mmapE site hint len (some a0)) = false from rfl]
      rw [show isLiveMmapAt a l (Ev.mmapE site hint len (some a0)) =
        (a0 == a && len == l && (site != 20 || hint == some a0)) from rfl]
      rw [show (site != 20) = !(site == 20) from rfl, hsite]
      rw [hc a l]
      simp only [Bool.not_false, Bool.true_or, Bool.and_true, Bool.and_eq_true,
        beq_iff_eq, Bool.false_eq_true, if_false]
      try ring
    · simp only [List.cons_append, List.nil_append, List.all_cons, hall]
      rfl

theorem Bal_mmapToleratedAt (hint len : Nat) (res : Option Nat)
    (body : Nat → Run)
    (hbody : ∀ a0, Bal (body a0)
      (fun a l => if a0 = a ∧ len = l then 1 else 0)) :
    Bal (mmapToleratedAt 20 hint len res body) (fun _ _ => 0) := by
  cases res with
  | none =>
    intro _
    constructor
    · intro a l
      simp [mmapToleratedAt, seq_true, pr, List.countP_cons, isMunmapAt, isLiveMmapAt]
    · simp [mmapToleratedAt, seq_true, pr, munmapRetZero]
  | some a0 =>
    by_cases ha : a0 = hint
    · subst ha
      intro hok
      simp only [mmapToleratedAt, seq_true] at hok ⊢
      try simp only at hok ⊢
      try rw [if_pos trivial] at hok ⊢
      try rw [if_pos rfl] at hok ⊢
      obtain ⟨hc, hall⟩ := hbody a0 hok
      constructor
      · intro a l
        simp only [List.countP_cons, List.countP_nil, List.cons_append,
          List.nil_append]
        rw [show isMunmapAt a l (Ev.mmapE 20 (some a0) len (some a0)) = false from rfl]
        rw [show isLiveMmapAt a l (Ev.mmapE 20 (some a0) len (some a0)) =
          (a0 == a && len == l && ((20 : Nat) != 20 || some a0 == some a0)) from rfl]
        rw [hc a l]
        simp only [bne_self_eq_false, beq_self_eq_true, Bool.or_true,
          Bool.and_true, Bool.and_eq_true, beq_iff_eq, Bool.false_eq_true,
          if_false]
        try ring
      · simp only [List.cons_append, List.nil_append, List.all_cons, hall]
        rfl
    · intro _
      constructor
      · intro a l
        have hlive : isLiveMmapAt a l (Ev.mmapE 20 (some hint) len (some a0)) = false := by
          rw [show isLiveMmapAt a l (Ev.mmapE 20 (some hint) len (some a0)) =
            (a0 == a && len == l && ((20 : Nat) != 20 || some hint == some a0)) from rfl]
          have hne : (some hint == some a0) = false := by
            simp only [beq_eq_false_iff_ne, ne_eq, Option.some.injEq]
            exact fun hx => ha hx.symm
          rw [hne]
          simp
        have hlive2 : isLiveMmapAt a l Ev.printE = false := rfl
        have hm1 : isMunmapAt a l (Ev.mmapE 20 (some hint) len (some a0)) = false := rfl
        have hm2 : isMunmapAt a l Ev.printE = false := rfl
        simp only [mmapToleratedAt, seq_true]
        rw [if_neg ha]
        simp only [pr, List.cons_append, List.nil_append, List.countP_cons,
          List.countP_nil, hlive, hlive2, hm1, hm2, Bool.false_eq_true, if_false]
      · simp only [mmapToleratedAt, seq_true]
        rw [if_neg ha]
        simp [pr, munmapRetZero]

theorem Bal_nil : Bal { events := [], ok := true } (fun _ _ => 0) := by
  intro _
  exact ⟨fun a l => by simp, rfl⟩

theorem bal_test_individual (e : Env) :
    Bal (test_individual_alloc_rw_free e) (fun _ _ => 0) := by
  unfold test_individual_alloc_rw_free
  apply Bal_seq0 _ _ _ Bal_pr
  apply Bal_mmapAsserted
  · rfl
  intro a1
  apply Bal_seq0 _ _ _ Bal_pr
  apply Bal_seq0 _ _ _ (Bal_rwRun _ _ _)
  apply Bal_munmapAsserted _ _ _ _ (fun _ _ => 0)
  · intro a l; rfl
  apply Bal_seq0 _ _ _ Bal_pr
  apply Bal_mmapAsserted
  · rfl
  intro a2
  apply Bal_seq0 _ _ _ Bal_pr
  apply Bal_seq0 _ _ _ (Bal_rwRun _ _ _)
  apply Bal_munmapAsserted _ _ _ _ (fun _ _ => 0)
  · intro a l; rfl
  apply Bal_seq0 _ _ _ Bal_pr
  apply Bal_mmapAsserted
  · rfl
  intro a3
  apply Bal_seq0 _ _ _ Bal_pr
  apply Bal_seq0 _ _ _ (Bal_rwRun _ _ _)
  apply Bal_munmapAsserted _ _ _ _ (fun _ _ => 0)
  · intro a l; rfl
  exact Bal_seq0 _ _ _ Bal_pr Bal_pr

theorem bal_test_batch (e : Env) :
    Bal (test_batch_alloc_rw_free e) (fun _ _ => 0) := by
  unfold test_batch_alloc_rw_free
  apply Bal_seq0 _ _ _ Bal_pr
  apply Bal_mmapAsserted
  · rfl
  intro a1
  apply Bal_seq0 _ _ _ Bal_pr
  apply Bal_mmapAsserted
  · rfl
  intro a2
  apply Bal_seq0 _ _ _ Bal_pr
  apply Bal_mmapAsserted
  · rfl
  intro a3
  apply Bal_seq0 _ _ _ Bal_pr
  apply Bal_seq0 _ _ _ (Bal_rwRun _ _ _)
  apply Bal_seq0 _ _ _ (Bal_rwRun _ _ _)
  apply Bal_seq0 _ _ _ (Bal_rwRun _ _ _)
  apply Bal_munmapAsserted _ _ _ _
    (fun a l => (if a2 = a ∧ 2097152 = l then 1 else 0) +
      (if a3 = a ∧ 1073741824 = l then 1 else 0))
  · intro a l; ring
  apply Bal_seq0 _ _ _ Bal_pr
  apply Bal_munmapAsserted _ _ _ _
    (fun a l => (if a3 = a ∧ 1073741824 = l then 1 else 0))
  · intro a l; ring
  apply Bal_seq0 _ _ _ Bal_pr
  apply Bal_munmapAsserted _ _ _ _ (fun _ _ => 0)
  · intro a l; ring
  apply Bal_seq0 _ _ _ Bal_pr
  exact Bal_pr

theorem bal_test_interleaved (e : Env) :
    Bal (test_interleaved_alloc_rw_free e) (fun _ _ => 0) := by
  unfold test_interleaved_alloc_rw_free
  apply Bal_seq0 _ _ _ Bal_pr
  apply Bal_mmapAsserted
  · rfl
  intro a1
  apply Bal_seq0 _ _ _ Bal_pr
  apply Bal_seq0 _ _ _ (Bal_rwRun _ _ _)
  apply Bal_mmapAsserted
  · rfl
  intro a2
  apply Bal_seq0 _ _ _ Bal_pr
  apply Bal_seq0 _ _ _ (Bal_rwRun _ _ _)
  apply Bal_munmapAsserted _ _ _ _
    (fun a l => (if a2 = a ∧ 2097152 = l then 1 else 0))
  · intro a l; ring
  apply Bal_seq0 _ _ _ Bal_pr
  apply Bal_mmapAsserted
  · rfl
  intro a3
  apply Bal_seq0 _ _ _ Bal_pr
  apply Bal_seq0 _ _ _ (Bal_rwRun _ _ _)
  apply Bal_munmapAsserted _ _ _ _
    (fun a l => (if a3 = a ∧ 1073741824 = l then 1 else 0))
  · intro a l; ring
  apply Bal_seq0 _ _ _ Bal_pr
  apply Bal_munmapAsserted _ _ _ _ (fun _ _ => 0)
  · intro a l; ring
  exact Bal_seq0 _ _ _ Bal_pr Bal_pr

theorem bal_test_eager_lazy (e : Env) :
    Bal (test_eager_vs_lazy_allocation e) (fun _ _ => 0) := by
  unfold test_eager_vs_lazy_allocation
  apply Bal_seq0 _ _ _ Bal_pr
  apply Bal_mmapAsserted
  · rfl
  intro a1
  apply Bal_seq0 _ _ _ Bal_pr
  apply Bal_seq0 _ _ _ (Bal_rwRun _ _ _)
  apply Bal_munmapAsserted _ _ _ _ (fun _ _ => 0)
  · intro a l; rfl
  apply Bal_mmapAsserted
  · rfl
  intro a2
  apply Bal_seq0 _ _ _ Bal_pr
  apply Bal_seq0 _ _ _ (Bal_rwRun _ _ _)
  apply Bal_munmapAsserted _ _ _ _ (fun _ _ => 0)
  · intro a l; rfl
  apply Bal_mmapAsserted
  · rfl
  intro a3
  apply Bal_seq0 _ _ _ Bal_pr
  apply Bal_seq0 _ _ _ (Bal_rwRun _ _ _)
  apply Bal_munmapAsserted _ _ _ _ (fun _ _ => 0)
  · intro a l; rfl
  apply Bal_mmapAsserted
  · rfl
  intro a4
  apply Bal_seq0 _ _ _ Bal_pr
  apply Bal_seq0 _ _ _ (Bal_rwRun _ _ _)
  apply Bal_munmapAsserted _ _ _ _ (fun _ _ => 0)
  · intro a l; rfl
  apply Bal_mmapAsserted
  · rfl
  intro a5
  apply Bal_seq0 _ _ _ Bal_pr
  apply Bal_seq0 _ _ _ (Bal_rwRun _ _ _)
  apply Bal_munmapAsserted _ _ _ _ (fun _ _ => 0)
  · intro a l; rfl
  apply Bal_mmapAsserted
  · rfl
  intro a6
  apply Bal_seq0 _ _ _ Bal_pr
  apply Bal_seq0 _ _ _ (Bal_rwRun _ _ _)
  apply Bal_munmapAsserted _ _ _ _ (fun _ _ => 0)
  · intro a l; rfl
  exact Bal_seq0 _ _ _ Bal_pr Bal_pr

theorem bal_test_file (e : Env) :
    Bal (test_file_mapping_hugepages e) (fun _ _ => 0) := by
  unfold test_file_mapping_hugepages
  apply Bal_seq0 _ _ _ Bal_pr
  apply Bal_openAsserted
  apply Bal_plainCall
  · intro a l; rfl
  · intro a l; rfl
  · rfl
  apply Bal_mmapAsserted
  · rfl
  intro a1
  apply Bal_seq0 _ _ _ Bal_pr
  apply Bal_seq0 _ _ _ (Bal_rwRun _ _ _)
  apply Bal_munmapAsserted _ _ _ _ (fun _ _ => 0)
  · intro a l; rfl
  apply Bal_plainCall
  · intro a l; rfl
  · intro a l; rfl
  · rfl
  apply Bal_plainCall
  · intro a l; rfl
  · intro a l; rfl
  · rfl
  apply Bal_seq0
  · apply Bal_mmapTolerated
    · rfl
    · intro a2
      apply Bal_seq0 _ _ _ Bal_pr
      apply Bal_seq0 _ _ _ (Bal_rwRun _ _ _)
      apply Bal_munmapAsserted _ _ _ _ (fun _ _ => 0)
      · intro a l; simp
      exact Bal_nil
  apply Bal_plainCall
  · intro a l; rfl
  · intro a l; rfl
  · rfl
  apply Bal_plainCall
  · intro a l; rfl
  · intro a l; rfl
  · rfl
  exact Bal_pr

theorem bal_test_linear (e : Env) :
    Bal (test_linear_mapping e) (fun _ _ => 0) := by
  unfold test_linear_mapping
  apply Bal_seq0 _ _ _ Bal_pr
  apply Bal_seq0
  · apply Bal_mmapTolerated
    · rfl
    · intro a1
      apply Bal_seq0 _ _ _ Bal_pr
      apply Bal_seq0 _ _ _ (Bal_rwRun _ _ _)
      apply Bal_munmapAsserted _ _ _ _ (fun _ _ => 0)
      · intro a l; simp
      exact Bal_pr
  apply Bal_seq0
  · apply Bal_mmapTolerated
    · rfl
    · intro a2
      apply Bal_seq0 _ _ _ Bal_pr
      apply Bal_seq0 _ _ _ (Bal_rwRun _ _ _)
      apply Bal_munmapAsserted _ _ _ _ (fun _ _ => 0)
      · intro a l; simp
      exact Bal_pr
  apply Bal_seq0
  · apply Bal_mmapToleratedAt
    intro a3
    apply Bal_seq0 _ _ _ Bal_pr
    apply Bal_seq0 _ _ _ (Bal_rwRun _ _ _)
    apply Bal_munmapAsserted _ _ _ _ (fun _ _ => 0)
    · intro a l; simp
    exact Bal_pr
  exact Bal_pr

theorem bal_mmapMain (e : Env) : Bal (mmapMain e) (fun _ _ => 0) := by
  unfold mmapMain
  apply Bal_seq0 _ _ _ Bal_pr
  apply Bal_seq0 _ _ _ (bal_test_individual e)
  apply Bal_seq0 _ _ _ (bal_test_batch e)
  apply Bal_seq0 _ _ _ (bal_test_interleaved e)
  apply Bal_seq0 _ _ _ (bal_test_eager_lazy e)
  apply Bal_seq0 _ _ _ (bal_test_file e)
  exact Bal_seq0 _ _ _ (bal_test_linear e) Bal_pr

/-- C10 counterexample: on the path where the batch test's 1GB mmap fails,
the assert aborts the process while the batch 4KB mapping (returned at
address 4000) is still mapped: its mmap succeeded but no munmap for it
ever runs, so not every execution path pairs successful mmaps with
munmaps. -/
theorem mmap_success_without_munmap_on_abort_path :
    (mmapMain envBatchAbort).events.countP (isLiveMmapAt 4000 4096) = 1 ∧
      (mmapMain envBatchAbort).events.countP (isMunmapAt 4000 4096) = 0 := by
  simp only [mmapMain, test_individual_alloc_rw_free, test_batch_alloc_rw_free,
    test_interleaved_alloc_rw_free, test_eager_vs_lazy_allocation,
    test_file_mapping_hugepages, test_linear_mapping, rwRun_eq]
  decide

/-- C10 amended: on every execution on which the program terminates without
an assertion abort, each region returned by a qualifying mmap success (any
success; at the fixed-address 1GB site only one landing at the requested
address) is passed to exactly one munmap with the same address and length -
for every (addr, len) pair the munmap calls and the qualifying mmap
successes are equinumerous - and every munmap returned 0.  On aborting
paths, regions mapped at the abort are never munmapped. -/
theorem mmap_munmap_pairing_on_completed_runs (e : Env)
    (h : (mmapMain e).ok = true) :
    (∀ a l, (mmapMain e).events.countP (isMunmapAt a l) =
      (mmapMain e).events.countP (isLiveMmapAt a l)) ∧
      (mmapMain e).events.all munmapRetZero = true := by
  obtain ⟨hc, hall⟩ := bal_mmapMain e h
  exact ⟨fun a l => by simpa using hc a l, hall⟩

/-- Witness for the pairing theorem on the concrete completed run envSkip. -/
theorem mmap_munmap_pairing_witness :
    (∀ a l, (mmapMain envSkip).events.countP (isMunmapAt a l) =
      (mmapMain envSkip).events.countP (isLiveMmapAt a l)) ∧
      (mmapMain envSkip).events.all munmapRetZero = true :=
  mmap_munmap_pairing_on_completed_runs envSkip (by
    simp only [mmapMain, test_individual_alloc_rw_free, test_batch_alloc_rw_free,
      test_interleaved_alloc_rw_free, test_eager_vs_lazy_allocation,
      test_file_mapping_hugepages, test_linear_mapping, rwRun_eq]
    decide)

end MmapShm
